import Mathlib

/-!
Verification development for the TCG-Player-Collection-Tracker repository.

The repository is a small Python pipeline: a Selenium-based extractor
(`scrape_tcg_price` in `TCG_URL_Scraper_Draft.py`, with an earlier identical
copy in `TCG-URL-Scraper-Draft.py`), a batch runner
(`scrape_multiple_products`, two variants), JSON staging loaders, and two
Google-Sheets sinks (`write_prices_to_sheet.py`, `append_prices_to_sheet.py`).

This file shallowly embeds those functions.  External effects (the rendering
engine, the filesystem, the Sheets service) are made explicit inputs:
the rendering session is a `PageEnv` describing which exceptions the
Selenium calls raise and what static page snapshot BeautifulSoup sees; the
staged files are `FileContents`; the sheets are `List (List String)` of cell
values, and the sinks return the list of cell writes / rows they would emit
instead of performing them.  String primitives (`str.strip`,
`str.replace('$','')`, substring test, `urllib` query parsing) are embedded
at the character level, faithful to CPython semantics for the ASCII data
this program handles (percent-decoding maps each decoded byte to the char
of the same code point, which agrees with CPython for ASCII input).
-/

/-- Python `str.strip()` whitespace set (ASCII part). -/
def isSpaceChar (c : Char) : Bool :=
  c == ' ' || c == '\t' || c == '\n' || c == '\r' || c == '\x0b' || c == '\x0c'

/-- Python `str.strip()`: drop leading and trailing whitespace. -/
def pyStrip (s : String) : String :=
  String.mk (((s.data.dropWhile isSpaceChar).reverse.dropWhile isSpaceChar).reverse)

/-- Python `s.replace('$', '')`: remove every occurrence of the dollar sign. -/
def stripDollars (s : String) : String :=
  String.mk (s.data.filter (fun c => c != '$'))

/-- Does `needle` occur at the head of `hay`? -/
def charsLeadMatch : List Char → List Char → Bool
  | [], _ => true
  | _ :: _, [] => false
  | a :: as, b :: bs => a == b && charsLeadMatch as bs

/-- Does `needle` occur anywhere in `hay`?  Python `needle in hay`. -/
def hasSubChars (needle : List Char) : List Char → Bool
  | [] => needle.isEmpty
  | b :: bs => charsLeadMatch needle (b :: bs) || hasSubChars needle bs

/-- Python substring test `sub in s`. -/
def strHasSub (s sub : String) : Bool :=
  hasSubChars sub.data s.data

/- ## The static page snapshot: a rose tree of elements and text nodes,
   mirroring what BeautifulSoup parses out of `driver.page_source`. -/

mutual
inductive Html where
  | text (s : String) : Html
  | elem (tag : String) (classes : List String) (children : HtmlList) : Html
inductive HtmlList where
  | nil : HtmlList
  | cons (h : Html) (t : HtmlList) : HtmlList
end

/-- Children of an element (`text` nodes have none). -/
def Html.childrenOf : Html → HtmlList
  | .text _ => .nil
  | .elem _ _ ch => ch

mutual
/-- BeautifulSoup `.string`: the tag's single string child, descending
through a chain of single-child tags; `none` otherwise. -/
def nodeString : Html → Option String
  | .text s => some s
  | .elem _ _ ch => nodeStringL ch
def nodeStringL : HtmlList → Option String
  | .cons c .nil => nodeString c
  | _ => none
end

mutual
/-- BeautifulSoup `find`: first node in pre-order satisfying `p`
(searching a node means testing it, then its descendants). -/
def findH (p : Html → Bool) : Html → Option Html
  | .text _ => none
  | .elem t c ch =>
    if p (.elem t c ch) then some (.elem t c ch) else findL p ch
def findL (p : Html → Bool) : HtmlList → Option Html
  | .nil => none
  | .cons h t =>
    match findH p h with
    | some r => some r
    | none => findL p t
end

mutual
/-- Like `findH` but also returns the found node's ancestor chain,
nearest ancestor first (supports BeautifulSoup `find_parent`). -/
def findAncH (p : Html → Bool) (ancs : List Html) : Html → Option (Html × List Html)
  | .text _ => none
  | .elem t c ch =>
    if p (.elem t c ch) then some (.elem t c ch, ancs)
    else findAncL p (Html.elem t c ch :: ancs) ch
def findAncL (p : Html → Bool) (ancs : List Html) : HtmlList → Option (Html × List Html)
  | .nil => none
  | .cons h t =>
    match findAncH p ancs h with
    | some r => some r
    | none => findAncL p ancs t
end

mutual
/-- BeautifulSoup `get_text(strip=True)`: concatenation of each descendant
string stripped of surrounding whitespace. -/
def getTextS : Html → String
  | .text s => pyStrip s
  | .elem _ _ ch => getTextSL ch
def getTextSL : HtmlList → String
  | .nil => ""
  | .cons h t => getTextS h ++ getTextSL t
end

/-- The `string=lambda s: s and 'Market Price' in s` filter of the fallback:
the tag's `.string` exists and contains "Market Price". -/
def stringFilterMP (t : Html) : Bool :=
  match nodeString t with
  | none => false
  | some s => strHasSub s "Market Price"

/-- Filter for `soup.find('span', class_='price-points__upper__header__title',
string=...)`. -/
def isHeaderSpan (t : Html) : Bool :=
  match t with
  | .text _ => false
  | .elem tag classes _ =>
    tag == "span" && classes.contains "price-points__upper__header__title"
      && stringFilterMP t

/-- Filter for `find_parent('div', class_='price-points__upper')`. -/
def isUpperDiv (t : Html) : Bool :=
  match t with
  | .text _ => false
  | .elem tag classes _ => tag == "div" && classes.contains "price-points__upper"

/-- Filter for `find('span', class_='price-points__upper__price')`. -/
def isPriceSpan (t : Html) : Bool :=
  match t with
  | .text _ => false
  | .elem tag classes _ =>
    tag == "span" && classes.contains "price-points__upper__price"

/-- The static-snapshot fallback of `scrape_tcg_price`
(`TCG_URL_Scraper_Draft.py` lines 66-86): find the header span, ascend to
its `price-points__upper` ancestor, find the price span inside it, and read
its text; `none` as soon as any lookup fails. -/
def fallbackLookup (doc : HtmlList) : Option String :=
  match findAncL isHeaderSpan [] doc with
  | none => none
  | some (_, ancs) =>
    match ancs.find? isUpperDiv with
    | none => none
    | some container =>
      match findL isPriceSpan container.childrenOf with
      | none => none
      | some priceSpan => some (getTextS priceSpan)

/- ## The extractor. -/

/-- Outcome of the primary Selenium strategy (the `WebDriverWait` for the
"Market Price" span plus the two scoped `find_element` calls): either the
price element's `.text` was obtained, or some step raised / timed out. -/
inductive PrimaryOutcome where
  | found (text : String) : PrimaryOutcome
  | raised (msg : String) : PrimaryOutcome

/-- What the external world does during one `scrape_tcg_price` call:
`setupErr` is the diagnostic text of an exception raised during session
creation or navigation (lines 26-36), if any; `primary` is the primary
strategy's outcome; `snapshotErr` is the diagnostic text of an exception
raised while taking/parsing the static snapshot inside the fallback, if
any; `pageSource` is the parsed snapshot the fallback searches. -/
structure PageEnv where
  setupErr : Option String
  primary : PrimaryOutcome
  snapshotErr : Option String
  pageSource : HtmlList

/-- The dict returned by `scrape_tcg_price`; absent keys are `none`. -/
structure ScrapeResult where
  status : String
  url : String
  price : Option String
  price_raw : Option String
  sect : Option String
  message : Option String
deriving DecidableEq

/-- `scrape_tcg_price` (`TCG_URL_Scraper_Draft.py` lines 13-103; the copy in
`TCG-URL-Scraper-Draft.py` is line-for-line identical): session setup and
navigation, primary strategy, static-snapshot fallback, and the outermost
exception-to-error-result conversion. -/
def scrape_tcg_price (env : PageEnv) (url : String) : ScrapeResult :=
  match env.setupErr with
  | some e => ⟨"error", url, none, none, none, some e⟩
  | none =>
    match env.primary with
    | .found t =>
      let priceText := pyStrip t
      ⟨"success", url, some (stripDollars priceText), some priceText,
        some "Market Price", none⟩
    | .raised _ =>
      match env.snapshotErr with
      | some e => ⟨"error", url, none, none, none, some e⟩
      | none =>
        match fallbackLookup env.pageSource with
        | some t =>
          ⟨"success", url, some (stripDollars t), some t,
            some "Market Price", none⟩
        | none =>
          ⟨"error", url, none, none, none,
            some "Market Price element not found after waiting"⟩

/- ## The batch runners. -/

/-- The loop body of `scrape_multiple_products` in `TCG_URL_Scraper_Draft.py`
(lines 106-126).  `n` is `len(urls)` and `i` the 1-based loop counter; the
second component counts the `time.sleep` calls performed (`if i < len(urls)`
guards the sleep, so none happens after the last URL). -/
def smpAux (env : String → PageEnv) (n : Nat) : Nat → List String → List ScrapeResult × Nat
  | _, [] => ([], 0)
  | i, u :: rest =>
    let r := scrape_tcg_price (env u) u
    let rec_ := smpAux env n (i + 1) rest
    (r :: rec_.1, (if i < n then 1 else 0) + rec_.2)

/-- `scrape_multiple_products` of `TCG_URL_Scraper_Draft.py` (lines 106-126):
results in input order plus the number of pacing sleeps performed. -/
def scrape_multiple_products (env : String → PageEnv) (urls : List String) :
    List ScrapeResult × Nat :=
  smpAux env urls.length 1 urls

/-- `scrape_multiple_products` of `TCG-URL-Scraper-Draft.py` (lines 104-121):
the earlier draft sleeps unconditionally after every URL, the last included. -/
def scrape_multiple_products_draft (env : String → PageEnv) :
    List String → List ScrapeResult × Nat
  | [] => ([], 0)
  | u :: rest =>
    let r := scrape_tcg_price (env u) u
    let rec_ := scrape_multiple_products_draft env rest
    (r :: rec_.1, 1 + rec_.2)

/- ## The staging-file loaders. -/

/-- A parsed JSON value (what `json.load` returns). -/
inductive JVal where
  | null : JVal
  | bool (b : Bool) : JVal
  | num (n : Int) : JVal
  | str (s : String) : JVal
  | arr (xs : List JVal) : JVal
  | obj (fields : List (String × JVal)) : JVal

/-- Python `len()` is defined for strings, lists and dicts; on other JSON
values it raises `TypeError`. -/
def JVal.hasLen : JVal → Bool
  | .str _ => true
  | .arr _ => true
  | .obj _ => true
  | _ => false

/-- Dict key lookup (`'urls' in data` / `data['urls']`); keys of a
`json.load`-produced dict are unique. -/
def jlookup (fields : List (String × JVal)) (k : String) : Option JVal :=
  (fields.find? (fun f => f.1 == k)).map (fun f => f.2)

/-- The observable state of a staged JSON file: absent, present but not
parseable as JSON (with the exception's text), or parsed to a value. -/
inductive FileContents where
  | missing : FileContents
  | unparseable (err : String) : FileContents
  | parsed (v : JVal) : FileContents

/-- `load_urls_from_file` (`TCG_URL_Scraper_Draft.py` lines 129-159): missing
file or parse error yield `[]`; a dict with a `urls` key yields that value
when `len()` works on it (otherwise the `len` in the success log raises and
the outer `except` yields `[]`); a list is returned as-is; any other
top-level value hits the invalid-structure branch and yields `[]`. -/
def load_urls_from_file : FileContents → JVal
  | .missing => .arr []
  | .unparseable _ => .arr []
  | .parsed v =>
    match v with
    | .obj fields =>
      match jlookup fields "urls" with
      | some u => if u.hasLen then u else .arr []
      | none => .arr []
    | .arr xs => .arr xs
    | _ => .arr []

/-- `load_scrape_results` (`write_prices_to_sheet.py` lines 34-56, identical
copy in `append_prices_to_sheet.py`): missing file or parse error yield `[]`;
any parsed value is returned as-is provided `len()` works on it (the `len`
in the success log is the only structure check; if it raises, the outer
`except` yields `[]`). -/
def load_scrape_results : FileContents → JVal
  | .missing => .arr []
  | .unparseable _ => .arr []
  | .parsed v => if v.hasLen then v else .arr []

/- ## The sheet sinks. -/

/-- A scrape-result dict as loaded from `scrape_results.json`; each field
models the presence/value of the corresponding key (the sinks only read
these four keys, always as strings). -/
structure RawResult where
  status : Option String
  url : Option String
  price : Option String
  price_raw : Option String
deriving DecidableEq

/-- `result.get('price_raw', result.get('price'))`. -/
def priceOf (r : RawResult) : Option String :=
  match r.price_raw with
  | some p => some p
  | none => r.price

/-- Python truthiness of an optional string: present and non-empty. -/
def truthy : Option String → Bool
  | some s => s != ""
  | none => false

/-- Dict assignment `m[k] = v`: overwrite the binding if the key exists,
append it otherwise. -/
def assocSet {β : Type} : List (String × β) → String → β → List (String × β)
  | [], k, v => [(k, v)]
  | (k', v') :: rest, k, v =>
    if k' == k then (k, v) :: rest else (k', v') :: assocSet rest k v

/-- Dict lookup `m.get(k)` (keys are unique under `assocSet`). -/
def assocGet? {β : Type} (m : List (String × β)) (k : String) : Option β :=
  (m.find? (fun e => e.1 == k)).map (fun e => e.2)

/-- The price map of `write_prices_to_sheet` (lines 119-126): for each
result in order, if its status is `'success'` and both its url and its
price text (`price_raw`, falling back to `price`) are truthy, bind the url
to that price, later results overwriting earlier ones. -/
def buildPriceMap (results : List RawResult) : List (String × String) :=
  results.foldl
    (fun m r =>
      if r.status == some "success" then
        match r.url, priceOf r with
        | some u, some p => if u != "" && p != "" then assocSet m u p else m
        | _, _ => m
      else m)
    []

/-- The update loop of `write_prices_to_sheet` (lines 128-142) over the data
rows, `rowIdx` being the 1-based sheet row number (the loop starts at 2):
returns the cell writes `(row, 1-based column, value)` in order, the
`updated_count`, and the `not_found_count`.  A row too short to have the
URL cell is skipped entirely and counted in neither tally. -/
def updateRows (urlIdx priceIdx : Nat) (pm : List (String × String)) :
    List (List String) → Nat → List (Nat × Nat × String) × Nat × Nat
  | [], _ => ([], 0, 0)
  | row :: rest, rowIdx =>
    let rec_ := updateRows urlIdx priceIdx pm rest (rowIdx + 1)
    if urlIdx < row.length then
      match assocGet? pm (pyStrip (row.getD urlIdx "")) with
      | some p => ((rowIdx, priceIdx + 1, p) :: rec_.1, rec_.2.1 + 1, rec_.2.2)
      | none => (rec_.1, rec_.2.1, rec_.2.2 + 1)
    else rec_

/-- The summary dict of `write_prices_to_sheet`, extended with the list of
cell writes the call performs. -/
structure WriteSummary where
  updates : List (Nat × Nat × String)
  updated_rows : Nat
  not_found : Nat
deriving DecidableEq

/-- `write_prices_to_sheet` (`write_prices_to_sheet.py` lines 94-152), from
the point where the sheet's cell values are in hand: locate the two columns
in the header row, build the price map, and run the update loop.  The error
cases mirror the early returns of lines 96-117. -/
def write_prices_to_sheet (all_values : List (List String))
    (url_column price_column : String) (results : List RawResult) :
    Except String WriteSummary :=
  match all_values with
  | [] => .error "Spreadsheet is empty"
  | headers :: rows =>
    match headers.findIdx? (fun h => h == url_column) with
    | none => .error ("Column not found: " ++ url_column)
    | some urlIdx =>
      match headers.findIdx? (fun h => h == price_column) with
      | none => .error ("Column not found: " ++ price_column)
      | some priceIdx =>
        let res := updateRows urlIdx priceIdx (buildPriceMap results) rows 2
        .ok ⟨res.1, res.2.1, res.2.2⟩

/- ## URL query parsing (`urllib.parse`, as used by
`extract_condition_from_url`). -/

/-- Split a character list at every occurrence of `sep`
(Python `s.split(sep)`; the empty string yields `[""]`). -/
def splitChars (sep : Char) : List Char → List (List Char)
  | [] => [[]]
  | c :: rest =>
    let r := splitChars sep rest
    if c == sep then [] :: r
    else
      match r with
      | h :: t => (c :: h) :: t
      | [] => [[c]]

/-- Split at the first occurrence of `sep` (Python `s.split(sep, 1)`);
`none` when `sep` does not occur. -/
def splitFirst (sep : Char) : List Char → Option (List Char × List Char)
  | [] => none
  | c :: rest =>
    if c == sep then some ([], rest)
    else
      match splitFirst sep rest with
      | some (a, b) => some (c :: a, b)
      | none => none

/-- The value of a hex digit, `none` for other characters. -/
def hexVal? (c : Char) : Option Nat :=
  if '0' ≤ c ∧ c ≤ '9' then some (c.toNat - '0'.toNat)
  else if 'a' ≤ c ∧ c ≤ 'f' then some (c.toNat - 'a'.toNat + 10)
  else if 'A' ≤ c ∧ c ≤ 'F' then some (c.toNat - 'A'.toNat + 10)
  else none

/-- Percent-decoding (`urllib.parse.unquote`): `%` followed by two hex
digits becomes the byte of that value (mapped here to the char of the same
code point, which matches CPython on ASCII); a `%` not followed by two hex
digits is kept literally. -/
def pctDecode : List Char → List Char
  | '%' :: a :: b :: rest =>
    match hexVal? a, hexVal? b with
    | some x, some y => Char.ofNat (16 * x + y) :: pctDecode rest
    | _, _ => '%' :: pctDecode (a :: b :: rest)
  | c :: rest => c :: pctDecode rest
  | [] => []

/-- `urllib.parse.unquote_plus`: `+` becomes a space, then percent-decode. -/
def unquotePlus (s : String) : String :=
  String.mk (pctDecode (s.data.map (fun c => if c == '+' then ' ' else c)))

/-- The `query` component of `urlparse`: everything after the first `?` of
the part before the first `#`. -/
def urlQuery (url : String) : String :=
  let beforeFrag :=
    match splitFirst '#' url.data with
    | some (a, _) => a
    | none => url.data
  match splitFirst '?' beforeFrag with
  | some (_, q) => String.mk q
  | none => ""

/-- `urllib.parse.parse_qsl` with default arguments: split the query on
`&`, skip empty fields, fields without `=` and fields with an empty value,
and unquote-plus both name and value. -/
def parseQsl (qs : String) : List (String × String) :=
  (splitChars '&' qs.data).filterMap
    (fun field =>
      match field with
      | [] => none
      | _ =>
        match splitFirst '=' field with
        | none => none
        | some (k, v) =>
          if v.isEmpty then none
          else some (unquotePlus (String.mk k), unquotePlus (String.mk v)))

/-- `extract_condition_from_url` (`append_prices_to_sheet.py` lines
143-165): the first value bound to the `Condition` query parameter, or
`"N/A"` when the parameter is absent (`parse_qs` groups `parse_qsl` pairs
by name, and the code takes `query_params['Condition'][0]`). -/
def extract_condition_from_url (url : String) : String :=
  match (parseQsl (urlQuery url)).find? (fun kv => kv.1 == "Condition") with
  | some kv => kv.2
  | none => "N/A"

/- ## The append sink. -/

/-- `get_card_info_from_sheet` (`append_prices_to_sheet.py` lines 61-140),
from the point where the source sheet's cell values are in hand: map each
trimmed non-blank URL cell to the row's trimmed Card Name / Card Number
(`"N/A"` when the column is absent or the row too short), later rows
overwriting earlier ones.  A missing `url` column yields the empty map. -/
def get_card_info_from_sheet (all_values : List (List String)) :
    List (String × String × String) :=
  match all_values with
  | [] => []
  | headers :: rows =>
    match headers.findIdx? (fun h => h == "url") with
    | none => []
    | some urlIdx =>
      let nameIdx := headers.findIdx? (fun h => h == "Card Name")
      let numIdx := headers.findIdx? (fun h => h == "Card Number")
      rows.foldl
        (fun m row =>
          if urlIdx < row.length && pyStrip (row.getD urlIdx "") != "" then
            let u := pyStrip (row.getD urlIdx "")
            let nm :=
              match nameIdx with
              | some i => if i < row.length then pyStrip (row.getD i "") else "N/A"
              | none => "N/A"
            let num :=
              match numIdx with
              | some i => if i < row.length then pyStrip (row.getD i "") else "N/A"
              | none => "N/A"
            assocSet m u (nm, num)
          else m)
        []

/-- The row-building loop of `append_prices_to_sheet`
(`append_prices_to_sheet.py` lines 208-229): for each result in order, if
its status is `'success'` and url and price text are truthy, append the row
`[card_name, card_number, today, price, condition]`, where the name/number
pair is `card_map.get(url, ...)` with default `("N/A", "N/A")` and the
condition comes from `extract_condition_from_url`.  `today` is the
`datetime.now().strftime('%Y-%m-%d')` string, passed in as a parameter. -/
def append_prices_to_sheet (card_map : List (String × String × String))
    (today : String) (results : List RawResult) : List (List String) :=
  results.foldl
    (fun acc r =>
      if r.status == some "success" then
        match r.url, priceOf r with
        | some u, some p =>
          if u != "" && p != "" then
            let ci := (assocGet? card_map u).getD ("N/A", "N/A")
            acc ++ [[ci.1, ci.2, today, p, extract_condition_from_url u]]
          else acc
        | _, _ => acc
      else acc)
    []

/- ## Concrete test fixtures. -/

/-- A snapshot containing the full structural chain the fallback needs:
a `price-points__upper` div holding the "Market Price" header span and the
price span. -/
def docOk : HtmlList :=
  .cons
    (.elem "div" ["price-points__upper"]
      (.cons
        (.elem "section" ["price-points__upper__header"]
          (.cons
            (.elem "span" ["price-points__upper__header__title"]
              (.cons (.text "Market Price") .nil))
            .nil))
        (.cons
          (.elem "span" ["price-points__upper__price"]
            (.cons (.text " $3.45 ") .nil))
          .nil)))
    .nil

/-- A session whose primary strategy yields a price text with an interior
dollar sign (a price range as rendered by the target site). -/
def envDollar : PageEnv := ⟨none, .found "$1.00 - $2.00", none, .nil⟩

/-- A session whose creation raises with diagnostic text "boom". -/
def envBoom : PageEnv := ⟨some "boom", .raised "x", none, .nil⟩

/- ## Helper lemmas. -/

/-- Every return site of `scrape_tcg_price` carries the input url. -/
theorem scrape_url_eq (env : PageEnv) (url : String) :
    (scrape_tcg_price env url).url = url := by
  unfold scrape_tcg_price
  repeat' split
  all_goals rfl

/- ## C1 -/

/-- C1 counterexample: with raw price text `"$1.00 - $2.00"` the code's
`price_text.replace('$','')` removes the interior dollar sign as well, so
`price` is `"1.00 - 2.00"`, not the claim's `"1.00 - $2.00"` (leading
symbol removed, remainder preserved). -/
theorem price_normalization_counterexample :
    (scrape_tcg_price envDollar "u").price_raw = some "$1.00 - $2.00"
    ∧ (scrape_tcg_price envDollar "u").price = some "1.00 - 2.00"
    ∧ (scrape_tcg_price envDollar "u").price ≠ some "1.00 - $2.00" := by
  refine ⟨by decide, by decide, by decide⟩

/-- C1 amended: for every successful extraction result, `price` equals
`price_raw` with every `'$'` character removed (which coincides with
removing the single leading currency symbol whenever `price_raw` contains
no further `'$'`). -/
theorem price_strips_all_currency_symbols (env : PageEnv) (url : String)
    (h : (scrape_tcg_price env url).status = "success") :
    ∃ raw, (scrape_tcg_price env url).price_raw = some raw
      ∧ (scrape_tcg_price env url).price = some (stripDollars raw) := by
  revert h
  unfold scrape_tcg_price
  repeat' split
  all_goals intro h
  all_goals first
    | exact ⟨_, rfl, rfl⟩
    | simp at h

/-- C1 witness: instantiating the amended claim at a session whose primary
strategy found the text `"$1.00 - $2.00"`. -/
theorem price_strips_all_currency_symbols_witness :
    ∃ raw, (scrape_tcg_price envDollar "u").price_raw = some raw
      ∧ (scrape_tcg_price envDollar "u").price = some (stripDollars raw) :=
  price_strips_all_currency_symbols envDollar "u" (by decide)

/- ## C5 -/

/-- C5: the `status` of every extraction result determines its shape —
a success carries a price and no message, an error carries a message and
no price; the two fields are never both present nor both absent. -/
theorem result_status_determines_fields (env : PageEnv) (url : String) :
    ((scrape_tcg_price env url).status = "success"
      ∧ (scrape_tcg_price env url).price.isSome
      ∧ (scrape_tcg_price env url).message = none)
    ∨ ((scrape_tcg_price env url).status = "error"
      ∧ (scrape_tcg_price env url).message.isSome
      ∧ (scrape_tcg_price env url).price = none) := by
  unfold scrape_tcg_price
  repeat' split
  all_goals simp

/- ## C4 -/

/-- C4: the single-URL extraction always returns a classified result about
the input url; an exception during session creation or navigation becomes
`{status: error, url, message: str(e)}`, and so does an exception escaping
the inner fallback (raised while taking the static snapshot). -/
theorem extractor_total_error_conversion (env : PageEnv) (url : String) :
    ((scrape_tcg_price env url).url = url)
    ∧ ((scrape_tcg_price env url).status = "success"
        ∨ (scrape_tcg_price env url).status = "error")
    ∧ (∀ e, env.setupErr = some e →
        scrape_tcg_price env url = ⟨"error", url, none, none, none, some e⟩)
    ∧ (∀ m e, env.setupErr = none → env.primary = .raised m →
        env.snapshotErr = some e →
        scrape_tcg_price env url = ⟨"error", url, none, none, none, some e⟩) := by
  refine ⟨scrape_url_eq env url, ?_, ?_, ?_⟩
  · unfold scrape_tcg_price
    repeat' split
    all_goals simp
  · intro e he
    unfold scrape_tcg_price
    rw [he]
  · intro m e h1 h2 h3
    unfold scrape_tcg_price
    rw [h1, h2, h3]

/-- C4 witness: a session-creation failure with diagnostic "boom" yields
the corresponding error result. -/
theorem extractor_total_error_conversion_witness :
    scrape_tcg_price envBoom "u" = ⟨"error", "u", none, none, none, some "boom"⟩ :=
  (extractor_total_error_conversion envBoom "u").2.2.1 "boom" rfl

/- ## C6 -/

/-- C6: when session setup succeeded, the primary strategy raised and the
snapshot was taken without error, the result is a success with the same
normalization whenever the fallback's lookup chain succeeds, and the fixed
"Market Price element not found after waiting" error whenever any lookup in
the chain fails. -/
theorem fallback_chain_classification (env : PageEnv) (url m : String)
    (h1 : env.setupErr = none) (h2 : env.primary = .raised m)
    (h3 : env.snapshotErr = none) :
    (∀ t, fallbackLookup env.pageSource = some t →
      scrape_tcg_price env url =
        ⟨"success", url, some (stripDollars t), some t, some "Market Price", none⟩)
    ∧ (fallbackLookup env.pageSource = none →
      scrape_tcg_price env url =
        ⟨"error", url, none, none, none,
          some "Market Price element not found after waiting"⟩) := by
  constructor
  · intro t ht
    unfold scrape_tcg_price
    rw [h1, h2, h3, ht]
  · intro ht
    unfold scrape_tcg_price
    rw [h1, h2, h3, ht]

/-- C6 witness: on a snapshot holding the full header/container/price-span
chain, a timed-out primary strategy still produces the success result
`price_raw = "$3.45"`, `price = "3.45"`. -/
theorem fallback_chain_classification_witness :
    scrape_tcg_price ⟨none, .raised "timeout", none, docOk⟩ "u" =
      ⟨"success", "u", some "3.45", some "$3.45", some "Market Price", none⟩ :=
  (fallback_chain_classification ⟨none, .raised "timeout", none, docOk⟩
    "u" "timeout" rfl rfl rfl).1 "$3.45" (by decide)

/- ## Helper lemmas for the batch runners. -/

/-- The results collected by the main batch loop are the extraction results
of the input urls, in order. -/
theorem smpAux_fst (env : String → PageEnv) (n : Nat) :
    ∀ (us : List String) (i : Nat),
      (smpAux env n i us).1 = us.map (fun u => scrape_tcg_price (env u) u) := by
  intro us
  induction us with
  | nil => intro i; rfl
  | cons u rest ih => intro i; simp [smpAux, ih]

/-- Under the loop invariant `i + len(remaining) = len(urls) + 1`, the main
batch loop sleeps once per remaining URL except the last. -/
theorem smpAux_snd (env : String → PageEnv) (n : Nat) :
    ∀ (us : List String) (i : Nat), i + us.length = n + 1 →
      (smpAux env n i us).2 = us.length - 1 := by
  intro us
  induction us with
  | nil => intro i _; rfl
  | cons u rest ih =>
    intro i h
    cases rest with
    | nil =>
      have hi : i = n := by simpa using h
      simp [smpAux, hi]
    | cons v vs =>
      have hlt : i < n := by
        simp only [List.length_cons] at h
        omega
      have hrec := ih (i + 1) (by simp only [List.length_cons] at h ⊢; omega)
      show (if i < n then 1 else 0) + (smpAux env n (i + 1) (v :: vs)).2
          = (u :: v :: vs).length - 1
      rw [hrec, if_pos hlt]
      simp only [List.length_cons]
      omega

/-- The draft batch loop also collects the extraction results in order. -/
theorem draft_fst (env : String → PageEnv) :
    ∀ us : List String,
      (scrape_multiple_products_draft env us).1
        = us.map (fun u => scrape_tcg_price (env u) u) := by
  intro us
  induction us with
  | nil => rfl
  | cons u rest ih => simp [scrape_multiple_products_draft, ih]

/-- The draft batch loop sleeps once per URL, the last included. -/
theorem draft_snd (env : String → PageEnv) :
    ∀ us : List String, (scrape_multiple_products_draft env us).2 = us.length := by
  intro us
  induction us with
  | nil => rfl
  | cons u rest ih =>
    simp only [scrape_multiple_products_draft, ih, List.length_cons]
    omega

/- ## C3 -/

/-- C3: both batch runners return exactly one result per input URL, in
input order: the output has the input's length and the i-th result's `url`
field is the i-th input URL. -/
theorem batch_preserves_order_and_length (env : String → PageEnv)
    (urls : List String) :
    (scrape_multiple_products env urls).1.length = urls.length
    ∧ (scrape_multiple_products_draft env urls).1.length = urls.length
    ∧ (∀ i : Nat,
        ((scrape_multiple_products env urls).1[i]?).map ScrapeResult.url = urls[i]?)
    ∧ (∀ i : Nat,
        ((scrape_multiple_products_draft env urls).1[i]?).map ScrapeResult.url
          = urls[i]?) := by
  have h1 : (scrape_multiple_products env urls).1
      = urls.map (fun u => scrape_tcg_price (env u) u) :=
    smpAux_fst env urls.length urls 1
  have h2 := draft_fst env urls
  refine ⟨by rw [h1]; simp, by rw [h2]; simp, ?_, ?_⟩
  · intro i
    rw [h1, List.getElem?_map]
    cases urls[i]? with
    | none => rfl
    | some u => simp [scrape_url_eq]
  · intro i
    rw [h2, List.getElem?_map]
    cases urls[i]? with
    | none => rfl
    | some u => simp [scrape_url_eq]

/- ## C8 -/

/-- C8 counterexample: on the one-element batch `["u"]` the draft runner of
`TCG-URL-Scraper-Draft.py` performs one pacing sleep, although the claim
("no delay occurs after the last URL is processed") predicts
`len(urls) - 1 = 0` sleeps. -/
theorem draft_runner_sleeps_after_last :
    (scrape_multiple_products_draft (fun _ => envBoom) ["u"]).2 = 1
    ∧ (scrape_multiple_products_draft (fun _ => envBoom) ["u"]).2
        ≠ List.length ["u"] - 1 := by
  refine ⟨by decide, by decide⟩

/-- C8 amended: the main batch runner (`TCG_URL_Scraper_Draft.py`) sleeps
after every URL except the final one — `len(urls) - 1` sleeps — while the
earlier draft (`TCG-URL-Scraper-Draft.py`) sleeps after every URL, the
final one included. -/
theorem pacing_delay_counts (env : String → PageEnv) (urls : List String) :
    (scrape_multiple_products env urls).2 = urls.length - 1
    ∧ (scrape_multiple_products_draft env urls).2 = urls.length :=
  ⟨smpAux_snd env urls.length urls 1 (by omega), draft_snd env urls⟩

/- ## Helper lemmas for the update sink. -/

/-- Enumerate a list with indices starting at `n` (Python `enumerate(l, n)`). -/
def enumFrom {α : Type} (n : Nat) : List α → List (Nat × α)
  | [] => []
  | a :: as => (n, a) :: enumFrom (n + 1) as

/-- Specification of what the update loop does to one sheet row `row` at
1-based row number `rowIdx`: a single write of the mapped price at the
price column when the row has a URL cell whose trimmed value is a key of
the price map, and nothing otherwise. -/
def rowUpdateSpec (urlIdx priceIdx : Nat) (pm : List (String × String))
    (rowIdx : Nat) (row : List String) : Option (Nat × Nat × String) :=
  if urlIdx < row.length then
    match assocGet? pm (pyStrip (row.getD urlIdx "")) with
    | some p => some (rowIdx, priceIdx + 1, p)
    | none => none
  else none

/-- A data row counted by `not_found_count`: it has a URL cell, and the
trimmed URL matches no successful result. -/
def rowNotFound (urlIdx : Nat) (pm : List (String × String))
    (row : List String) : Bool :=
  if urlIdx < row.length then
    (assocGet? pm (pyStrip (row.getD urlIdx ""))).isNone
  else false

/-- The update loop equals its row-by-row specification: the writes are the
`rowUpdateSpec` hits in sheet order, `updated_count` is their number, and
`not_found_count` counts the `rowNotFound` rows. -/
theorem updateRows_eq (urlIdx priceIdx : Nat) (pm : List (String × String)) :
    ∀ (rows : List (List String)) (n : Nat),
      updateRows urlIdx priceIdx pm rows n =
        ((enumFrom n rows).filterMap
            (fun e => rowUpdateSpec urlIdx priceIdx pm e.1 e.2),
          ((enumFrom n rows).filterMap
            (fun e => rowUpdateSpec urlIdx priceIdx pm e.1 e.2)).length,
          rows.countP (rowNotFound urlIdx pm)) := by
  intro rows
  induction rows with
  | nil => intro n; rfl
  | cons row rest ih =>
    intro n
    by_cases hlen : urlIdx < row.length
    · cases hget : assocGet? pm (pyStrip (row.getD urlIdx "")) with
      | some p =>
        simp only [updateRows, enumFrom, List.filterMap_cons, List.countP_cons,
          rowUpdateSpec, rowNotFound, hlen, if_pos, hget, ih (n + 1),
          Option.isNone_some]
        try simp
      | none =>
        simp only [updateRows, enumFrom, List.filterMap_cons, List.countP_cons,
          rowUpdateSpec, rowNotFound, hlen, if_pos, hget, ih (n + 1),
          Option.isNone_none]
        try simp
    · simp only [updateRows, enumFrom, List.filterMap_cons, List.countP_cons,
        rowUpdateSpec, rowNotFound, hlen, if_neg, ih (n + 1)]
      try simp

/-- `assocSet` followed by lookup of the same key yields the new value. -/
theorem assocGet?_assocSet {β : Type} (m : List (String × β)) (k : String) (v : β) :
    assocGet? (assocSet m k v) k = some v := by
  induction m with
  | nil => simp [assocSet, assocGet?]
  | cons e rest ih =>
    by_cases h : e.1 == k
    · simp [assocSet, assocGet?, h]
    · simp only [assocSet]
      cases e with
      | mk k' v' =>
        simp only at h
        simp [assocGet?, h, List.find?] at ih ⊢
        simpa [h] using ih

/- ## C2 -/

/-- C2 counterexample: a result set holding one successful result whose URL
`"x"` is absent from the sheet's URL column (the sheet has a header row
only).  The code returns `not_found = 0` — the counter tallies sheet rows
without a matching result, not results absent from the sheet — whereas the
claim ("each successful result whose URL is absent from the sheet's URL
column is counted under not found") predicts a positive `not_found`. -/
theorem not_found_counts_rows_counterexample :
    (write_prices_to_sheet [["url", "Price"]] "url" "Price"
        [⟨some "success", some "x", none, some "$1.00"⟩]
      = Except.ok ⟨[], 0, 0⟩)
    ∧ ¬ ∃ s : WriteSummary,
        write_prices_to_sheet [["url", "Price"]] "url" "Price"
            [⟨some "success", some "x", none, some "$1.00"⟩]
          = Except.ok s ∧ 1 ≤ s.not_found := by
  have h0 : write_prices_to_sheet [["url", "Price"]] "url" "Price"
      [⟨some "success", some "x", none, some "$1.00"⟩]
      = Except.ok (⟨[], 0, 0⟩ : WriteSummary) := by rfl
  refine ⟨h0, ?_⟩
  rintro ⟨s, hs, hn⟩
  rw [h0] at hs
  cases Except.ok.inj hs
  exact absurd hn (by decide)

/-- C2 amended: in update mode the cell writes are exactly the
`rowUpdateSpec` hits — one write per data row whose URL cell exists and
whose trimmed URL is a key of the price map built from the successful
results (exact string match after trim, value overwritten with the mapped
raw price text), so a result whose URL is absent from the sheet causes no
write while other matching rows are still updated, and each row is written
at most once.  `not_found` counts the sheet's data rows with an unmatched
URL cell, not the results absent from the sheet. -/
theorem write_prices_update_characterization
    (headers : List String) (rows : List (List String))
    (url_column price_column : String) (results : List RawResult)
    (urlIdx priceIdx : Nat) (s : WriteSummary)
    (hu : headers.findIdx? (fun h => h == url_column) = some urlIdx)
    (hp : headers.findIdx? (fun h => h == price_column) = some priceIdx)
    (hok : write_prices_to_sheet (headers :: rows) url_column price_column results
      = Except.ok s) :
    s.updates = (enumFrom 2 rows).filterMap
        (fun e => rowUpdateSpec urlIdx priceIdx (buildPriceMap results) e.1 e.2)
    ∧ s.updated_rows = s.updates.length
    ∧ s.not_found = rows.countP (rowNotFound urlIdx (buildPriceMap results)) := by
  simp only [write_prices_to_sheet] at hok
  rw [hu, hp] at hok
  dsimp only at hok
  rw [updateRows_eq] at hok
  cases Except.ok.inj hok
  exact ⟨rfl, rfl, rfl⟩

/-- C2 witness: a two-data-row sheet in which the first row matches the
single successful result and the second does not: one write to the matching
row, `not_found = 1` for the unmatched row. -/
theorem write_prices_update_characterization_witness :
    (⟨[(2, 2, "$1.00")], 1, 1⟩ : WriteSummary).updates
      = (enumFrom 2 [["a", ""], ["b", ""]]).filterMap
          (fun e => rowUpdateSpec 0 1
            (buildPriceMap [⟨some "success", some "a", none, some "$1.00"⟩]) e.1 e.2)
    ∧ (⟨[(2, 2, "$1.00")], 1, 1⟩ : WriteSummary).updated_rows
      = (⟨[(2, 2, "$1.00")], 1, 1⟩ : WriteSummary).updates.length
    ∧ (⟨[(2, 2, "$1.00")], 1, 1⟩ : WriteSummary).not_found
      = List.countP (rowNotFound 0
          (buildPriceMap [⟨some "success", some "a", none, some "$1.00"⟩]))
          [["a", ""], ["b", ""]] :=
  write_prices_update_characterization ["url", "Price"] [["a", ""], ["b", ""]]
    "url" "Price" [⟨some "success", some "a", none, some "$1.00"⟩]
    0 1 ⟨[(2, 2, "$1.00")], 1, 1⟩ rfl rfl rfl

/- ## C9 -/

/-- C9: the price map is built in result-list order with later bindings
overwriting earlier ones, so appending a successful result makes its raw
price the mapped value for its URL; and one successful result updates every
sheet row whose trimmed URL cell equals its URL, as the concrete two-row
sheet shows (both rows written from the single result). -/
theorem price_map_last_wins_and_multirow
    (results : List RawResult) (r : RawResult) (u p : String)
    (h1 : r.status = some "success") (h2 : r.url = some u)
    (h3 : priceOf r = some p) (h4 : u ≠ "") (h5 : p ≠ "") :
    assocGet? (buildPriceMap (results ++ [r])) u = some p
    ∧ write_prices_to_sheet [["url", "Price"], ["w", "a"], ["w", "b"]]
        "url" "Price" [⟨some "success", some "w", none, some "$2.00"⟩]
      = Except.ok ⟨[(2, 2, "$2.00"), (3, 2, "$2.00")], 2, 0⟩ := by
  constructor
  · have hstep : buildPriceMap (results ++ [r])
        = assocSet (buildPriceMap results) u p := by
      unfold buildPriceMap
      rw [List.foldl_append]
      simp [h1, h2, h3, h4, h5]
    rw [hstep]
    exact assocGet?_assocSet _ u p
  · rfl

/-- C9 witness: appending a duplicate-URL result to a singleton result list
makes the later price the mapped one. -/
theorem price_map_last_wins_and_multirow_witness :
    assocGet? (buildPriceMap
        ([⟨some "success", some "x", none, some "$1.00"⟩]
          ++ [⟨some "success", some "x", none, some "$9.99"⟩])) "x"
      = some "$9.99"
    ∧ write_prices_to_sheet [["url", "Price"], ["w", "a"], ["w", "b"]]
        "url" "Price" [⟨some "success", some "w", none, some "$2.00"⟩]
      = Except.ok ⟨[(2, 2, "$2.00"), (3, 2, "$2.00")], 2, 0⟩ :=
  price_map_last_wins_and_multirow
    [⟨some "success", some "x", none, some "$1.00"⟩]
    ⟨some "success", some "x", none, some "$9.99"⟩
    "x" "$9.99" rfl rfl rfl (by decide) (by decide)

/- ## Helper lemmas for the append sink. -/

/-- Specification of the row appended for one result: present exactly when
the result is successful with truthy url and price text, and then equal to
`[card_name, card_number, today, price, condition]` with the name/number
pair looked up in the card map by exact URL match (default `"N/A"`). -/
def appendedRowSpec (card_map : List (String × String × String))
    (today : String) (r : RawResult) : Option (List String) :=
  if r.status == some "success" then
    match r.url, priceOf r with
    | some u, some p =>
      if u != "" && p != "" then
        let ci := (assocGet? card_map u).getD ("N/A", "N/A")
        some [ci.1, ci.2, today, p, extract_condition_from_url u]
      else none
    | _, _ => none
  else none

/-- The append loop's fold, run from any accumulator, appends exactly the
`appendedRowSpec` rows of the remaining results. -/
theorem append_prices_foldl (card_map : List (String × String × String))
    (today : String) :
    ∀ (results : List RawResult) (acc : List (List String)),
      results.foldl
        (fun acc r =>
          if r.status == some "success" then
            match r.url, priceOf r with
            | some u, some p =>
              if u != "" && p != "" then
                let ci := (assocGet? card_map u).getD ("N/A", "N/A")
                acc ++ [[ci.1, ci.2, today, p, extract_condition_from_url u]]
              else acc
            | _, _ => acc
          else acc)
        acc
      = acc ++ results.filterMap (appendedRowSpec card_map today) := by
  intro results
  induction results with
  | nil => intro acc; simp
  | cons r rest ih =>
    intro acc
    simp only [List.foldl_cons, List.filterMap_cons, appendedRowSpec]
    by_cases hst : r.status == some "success"
    · simp only [hst, if_pos]
      cases hurl : r.url with
      | none =>
        cases hpr : priceOf r with
        | none => rw [ih acc]; try simp
        | some p => rw [ih acc]; try simp
      | some u =>
        cases hpr : priceOf r with
        | none => rw [ih acc]; try simp
        | some p =>
          by_cases htr : u != "" && p != ""
          · simp only [htr, if_pos, ih]
            try simp
          · simp only [htr, if_neg, ih]
            try simp
    · simp only [hst, if_neg, Bool.false_eq_true, ih]
      try simp

/-- The length of a `filterMap` is the count of inputs the function hits. -/
theorem length_filterMap_countP {α β : Type} (f : α → Option β) :
    ∀ l : List α, (l.filterMap f).length = l.countP (fun a => (f a).isSome) := by
  intro l
  induction l with
  | nil => rfl
  | cons a rest ih =>
    simp only [List.filterMap_cons, List.countP_cons]
    cases h : f a with
    | none => simp [ih, h]
    | some b => simp [ih, h]

/-- `appendedRowSpec` hits exactly the successful results with truthy url
and truthy price text. -/
theorem appendedRowSpec_isSome (card_map : List (String × String × String))
    (today : String) (r : RawResult) :
    (appendedRowSpec card_map today r).isSome
      = (r.status == some "success" && truthy r.url && truthy (priceOf r)) := by
  unfold appendedRowSpec truthy
  by_cases hst : r.status == some "success"
  · simp only [hst, if_pos, Bool.true_and]
    cases r.url with
    | none => simp
    | some u =>
      cases priceOf r with
      | none => simp
      | some p =>
        by_cases htr : u != "" && p != ""
        · simp [htr]
        · simp [Bool.eq_false_iff.mpr htr]
  · simp [hst]

/- ## C7 -/

/-- C7 counterexample: a successful result whose `price_raw` is the empty
string is silently dropped by the `if url and price` truthiness guard — the
append produces no row, although the claim ("exactly one new row per
successful Extraction Result") predicts one row for the one successful
result. -/
theorem append_drops_falsy_price_counterexample :
    append_prices_to_sheet [] "2026-10-12"
        [⟨some "success", some "u", none, some ""⟩] = []
    ∧ List.countP (fun r => r.status == some "success")
        [(⟨some "success", some "u", none, some ""⟩ : RawResult)] = 1 :=
  ⟨rfl, rfl⟩

/-- C7 amended: append mode appends exactly one row per successful result
whose url and price text are both non-empty (falsy ones are silently
dropped), in result order; each appended row is
`[card_name, card_number, today, price_raw, condition]` with the name and
number looked up from the source sheet's card map by exact URL match
(`"N/A"` defaults), the supplied date string, the raw price text, and the
URL's `Condition` query parameter (`"N/A"` when absent), as witnessed by
the two concrete condition extractions. -/
theorem append_rows_characterization (src : List (List String))
    (today : String) (results : List RawResult) :
    append_prices_to_sheet (get_card_info_from_sheet src) today results
      = results.filterMap (appendedRowSpec (get_card_info_from_sheet src) today)
    ∧ (append_prices_to_sheet (get_card_info_from_sheet src) today results).length
      = results.countP
          (fun r => r.status == some "success" && truthy r.url && truthy (priceOf r))
    ∧ extract_condition_from_url
        "https://www.tcgplayer.com/product/123?Condition=Near%20Mint" = "Near Mint"
    ∧ extract_condition_from_url "https://www.tcgplayer.com/product/123" = "N/A" := by
  have h1 : append_prices_to_sheet (get_card_info_from_sheet src) today results
      = results.filterMap (appendedRowSpec (get_card_info_from_sheet src) today) := by
    unfold append_prices_to_sheet
    rw [append_prices_foldl]
    simp
  refine ⟨h1, ?_, by decide, by decide⟩
  rw [h1, length_filterMap_countP]
  exact List.countP_congr
    (fun r _ => by rw [appendedRowSpec_isSome (get_card_info_from_sheet src) today r])

/- ## C10 -/

/-- C10 counterexample: `load_scrape_results` performs no structure check
beyond `len()`, so a parsed top-level JSON object without a `urls` key —
neither a list nor a urls-object — is returned unchanged instead of
yielding the empty list the claim predicts. -/
theorem load_scrape_results_nonlist_counterexample :
    load_scrape_results (.parsed (.obj [("a", .num 1)]))
      = .obj [("a", .num 1)]
    ∧ load_scrape_results (.parsed (.obj [("a", .num 1)])) ≠ .arr [] := by
  refine ⟨rfl, fun h => ?_⟩
  have h0 : load_scrape_results (.parsed (.obj [("a", .num 1)]))
      = JVal.obj [("a", .num 1)] := rfl
  rw [h0] at h
  exact JVal.noConfusion h

/-- C10 amended: neither loader raises; both yield the empty list for a
missing or unparseable file; `load_urls_from_file` also yields the empty
list for any top-level value that is neither a list nor an object with a
`urls` key; `load_scrape_results`, however, yields the empty list only for
top-level values without a `len()` (null, booleans, numbers) and returns
any sized top-level value (string, list, object) unchanged. -/
theorem loaders_missing_unparseable_empty :
    (load_urls_from_file .missing = .arr []
      ∧ load_scrape_results .missing = .arr [])
    ∧ (∀ e, load_urls_from_file (.unparseable e) = .arr []
      ∧ load_scrape_results (.unparseable e) = .arr [])
    ∧ (∀ v : JVal, (∀ xs, v ≠ .arr xs)
      → (∀ fields, v = .obj fields → jlookup fields "urls" = none)
      → load_urls_from_file (.parsed v) = .arr [])
    ∧ (∀ v : JVal, v.hasLen = false → load_scrape_results (.parsed v) = .arr [])
    ∧ (∀ v : JVal, v.hasLen = true → load_scrape_results (.parsed v) = v) := by
  refine ⟨⟨rfl, rfl⟩, fun e => ⟨rfl, rfl⟩, ?_, ?_, ?_⟩
  · intro v harr hobj
    cases v with
    | arr xs => exact absurd rfl (harr xs)
    | obj fields =>
      have h := hobj fields rfl
      simp [load_urls_from_file, h]
    | null => rfl
    | bool b => rfl
    | num n => rfl
    | str s => rfl
  · intro v h
    cases v <;> simp_all [load_scrape_results, JVal.hasLen]
  · intro v h
    cases v <;> simp_all [load_scrape_results, JVal.hasLen]

/-- C10 witness: concrete instantiations of the amended claim — a numeric
top level yields `[]` from `load_urls_from_file`, a null top level yields
`[]` from `load_scrape_results`, and an array top level is returned
unchanged. -/
theorem loaders_missing_unparseable_empty_witness :
    load_urls_from_file (.parsed (.num 3)) = .arr []
    ∧ load_scrape_results (.parsed .null) = .arr []
    ∧ load_scrape_results (.parsed (.arr [.str "x"])) = .arr [.str "x"]
    ∧ load_urls_from_file (.unparseable "bad") = .arr [] := by
  refine ⟨?_, ?_, ?_, ?_⟩
  · exact loaders_missing_unparseable_empty.2.2.1 (.num 3)
      (fun xs h => JVal.noConfusion h) (fun fields h => JVal.noConfusion h)
  · exact loaders_missing_unparseable_empty.2.2.2.1 .null rfl
  · exact loaders_missing_unparseable_empty.2.2.2.2 (.arr [.str "x"]) rfl
  · exact (loaders_missing_unparseable_empty.2.1 "bad").1
